import Mathlib

/-!
Shallow embedding of the Fourier text-to-speech application
(`src/app.py`, `src/service_account_manager.py`, `src/config.py`).

Python strings whose length matters are modelled as `List Char`;
identifiers (user ids, session ids, field names) as `String`;
wall-clock timestamps (`time.time()`, a float) as `ℚ`; the on-disk
credential directory as a map `String → Option ServiceAccountJson`
keyed by the user id (the real path is `credentials/user_service_accounts/{user_id}.json`,
derived deterministically from the id); the remote Google client as a
record of its observable behaviour.  Exceptions raised and caught in
the source become `Option`/outcome values.
-/

/-- Default configuration constants of `app.py`
(`MAX_TEXT_LENGTH`, `RATE_LIMIT_REQUESTS`, `RATE_LIMIT_WINDOW`
read from the environment with these defaults). -/
def MAX_TEXT_LENGTH : Nat := 5000

def RATE_LIMIT_REQUESTS : Nat := 10

def RATE_LIMIT_WINDOW : ℚ := 60

/-- The dict `st.session_state.rate_limit`,
`{"count": ..., "window_start": ...}` of `check_rate_limit` in `app.py`. -/
structure RateLimitState where
  count : Nat
  window_start : ℚ
deriving DecidableEq

/-- Function `check_rate_limit` (`app.py`, lines 307-322), state-passing form.
`s = none` models `"rate_limit" not in st.session_state`; the returned
state is what the function leaves in `st.session_state.rate_limit`.
The single `now` stands for the `time.time()` reads made during the call. -/
def check_rate_limit (maxRequests : Nat) (window : ℚ) (now : ℚ)
    (s : Option RateLimitState) : Bool × RateLimitState :=
  let s0 : RateLimitState :=
    match s with
    | none => { count := 0, window_start := now }
    | some t => t
  let s1 : RateLimitState :=
    if now - s0.window_start > window then { count := 0, window_start := now } else s0
  if s1.count ≥ maxRequests then
    (false, s1)
  else
    (true, { s1 with count := s1.count + 1 })

/-- Iterate `check_rate_limit` over a list of call timestamps, collecting
the returned booleans and the final stored window state. -/
def run_rate_limit (maxRequests : Nat) (window : ℚ) :
    Option RateLimitState → List ℚ → List Bool × Option RateLimitState
  | s, [] => ([], s)
  | s, t :: ts =>
    match check_rate_limit maxRequests window t s with
    | (b, s') =>
      match run_rate_limit maxRequests window (some s') ts with
      | (bs, sf) => (b :: bs, sf)

/-- A first call (no stored window) initialises the window at `now` and accepts. -/
theorem check_rate_limit_first (maxRequests : Nat) (window now : ℚ)
    (hw : 0 ≤ window) (hm : 0 < maxRequests) :
    check_rate_limit maxRequests window now none =
      (true, { count := 1, window_start := now }) := by
  have h1 : ¬ now - now > window := by
    rw [sub_self]
    exact not_lt.mpr hw
  have h2 : ¬ (0 ≥ maxRequests) := by omega
  simp only [check_rate_limit, if_neg h1, if_neg h2]

/-- A call inside the window with spare budget increments and accepts. -/
theorem check_rate_limit_accept (maxRequests : Nat) (window now w : ℚ) (c : Nat)
    (h1 : now - w ≤ window) (h2 : c < maxRequests) :
    check_rate_limit maxRequests window now (some { count := c, window_start := w }) =
      (true, { count := c + 1, window_start := w }) := by
  have h1' : ¬ now - w > window := not_lt.mpr h1
  have h2' : ¬ (c ≥ maxRequests) := by omega
  simp only [check_rate_limit, if_neg h1', if_neg h2']

/-- A call inside the window with exhausted budget rejects without incrementing. -/
theorem check_rate_limit_reject (maxRequests : Nat) (window now w : ℚ) (c : Nat)
    (h1 : now - w ≤ window) (h2 : c ≥ maxRequests) :
    check_rate_limit maxRequests window now (some { count := c, window_start := w }) =
      (false, { count := c, window_start := w }) := by
  have h1' : ¬ now - w > window := not_lt.mpr h1
  simp only [check_rate_limit, if_neg h1', if_pos h2]

/-- A call after the window has elapsed resets the window and accepts. -/
theorem check_rate_limit_reset (maxRequests : Nat) (window now w : ℚ) (c : Nat)
    (h1 : now - w > window) (hm : 0 < maxRequests) :
    check_rate_limit maxRequests window now (some { count := c, window_start := w }) =
      (true, { count := 1, window_start := now }) := by
  have h2 : ¬ (0 ≥ maxRequests) := by omega
  simp only [check_rate_limit, if_pos h1, if_neg h2]

/-- Running a block of in-window calls that fits in the remaining budget
accepts every call and adds the block length to the count. -/
theorem run_rate_limit_accepts (maxRequests : Nat) (window w : ℚ) (ts : List ℚ)
    (c : Nat) (hts : ∀ t ∈ ts, t - w ≤ window) (hc : c + ts.length ≤ maxRequests) :
    run_rate_limit maxRequests window (some { count := c, window_start := w }) ts =
      (List.replicate ts.length true,
       some { count := c + ts.length, window_start := w }) := by
  induction ts generalizing c with
  | nil => simp [run_rate_limit]
  | cons t ts ih =>
    have h1 : t - w ≤ window := hts t (List.mem_cons_self t ts)
    have h2 : c < maxRequests := by
      simp only [List.length_cons] at hc
      omega
    rw [run_rate_limit, check_rate_limit_accept maxRequests window t w c h1 h2]
    dsimp only
    rw [ih (c + 1) (fun x hx => hts x (List.mem_cons_of_mem t hx))
        (by simp only [List.length_cons] at hc; omega)]
    simp only [List.length_cons, List.replicate_succ, Prod.mk.injEq,
      Option.some.injEq, RateLimitState.mk.injEq]
    exact ⟨trivial, by omega, trivial⟩

/-- Splitting a call sequence: `run_rate_limit` over `ts ++ ts'` is the run
over `ts` followed by the run over `ts'` from the intermediate state. -/
theorem run_rate_limit_append (maxRequests : Nat) (window : ℚ)
    (s : Option RateLimitState) (ts ts' : List ℚ) :
    run_rate_limit maxRequests window s (ts ++ ts') =
      ((run_rate_limit maxRequests window s ts).1 ++
         (run_rate_limit maxRequests window
           (run_rate_limit maxRequests window s ts).2 ts').1,
       (run_rate_limit maxRequests window
         (run_rate_limit maxRequests window s ts).2 ts').2) := by
  induction ts generalizing s with
  | nil => simp [run_rate_limit]
  | cons t ts ih =>
    simp only [List.cons_append, run_rate_limit, List.append_eq]
    rw [ih]

/-- C1: with `max-requests-per-window = 10` and `window-duration = 60`,
eleven consecutive `check_rate_limit` calls that all fall within one
window (each at most 60 seconds after the first, which starts the
window) yield ten `true`s and then a `false` that does not increment
the stored count; any later call strictly more than 60 seconds after
the window start resets the window, returns `true`, and leaves the
counter at 1. -/
theorem rate_limit_fixed_window
    (t0 t1 t2 t3 t4 t5 t6 t7 t8 t9 t10 tNext : ℚ)
    (h1 : t1 - t0 ≤ 60) (h2 : t2 - t0 ≤ 60) (h3 : t3 - t0 ≤ 60) (h4 : t4 - t0 ≤ 60)
    (h5 : t5 - t0 ≤ 60) (h6 : t6 - t0 ≤ 60) (h7 : t7 - t0 ≤ 60) (h8 : t8 - t0 ≤ 60)
    (h9 : t9 - t0 ≤ 60) (h10 : t10 - t0 ≤ 60) (hn : tNext - t0 > 60) :
    run_rate_limit RATE_LIMIT_REQUESTS RATE_LIMIT_WINDOW none
        [t0, t1, t2, t3, t4, t5, t6, t7, t8, t9, t10] =
      ([true, true, true, true, true, true, true, true, true, true, false],
       some { count := 10, window_start := t0 }) ∧
    check_rate_limit RATE_LIMIT_REQUESTS RATE_LIMIT_WINDOW tNext
        (some { count := 10, window_start := t0 }) =
      (true, { count := 1, window_start := tNext }) := by
  simp only [RATE_LIMIT_REQUESTS, RATE_LIMIT_WINDOW]
  constructor
  · have h0run : run_rate_limit 10 60 none [t0] =
        ([true], some { count := 1, window_start := t0 }) := by
      rw [run_rate_limit, check_rate_limit_first 10 60 t0 (by norm_num) (by norm_num)]
      rfl
    have h9run : run_rate_limit 10 60 (some { count := 1, window_start := t0 })
        [t1, t2, t3, t4, t5, t6, t7, t8, t9] =
        (List.replicate 9 true, some { count := 10, window_start := t0 }) := by
      have hts : ∀ t ∈ ([t1, t2, t3, t4, t5, t6, t7, t8, t9] : List ℚ), t - t0 ≤ 60 := by
        intro x hx
        simp only [List.mem_cons, List.not_mem_nil, or_false] at hx
        rcases hx with rfl | rfl | rfl | rfl | rfl | rfl | rfl | rfl | rfl <;> assumption
      have := run_rate_limit_accepts 10 60 t0
        [t1, t2, t3, t4, t5, t6, t7, t8, t9] 1 hts (by norm_num)
      simpa using this
    have h1run : run_rate_limit 10 60 (some { count := 10, window_start := t0 }) [t10] =
        ([false], some { count := 10, window_start := t0 }) := by
      rw [run_rate_limit, check_rate_limit_reject 10 60 t10 t0 10 h10 (le_refl 10)]
      rfl
    have hsplit : ([t0, t1, t2, t3, t4, t5, t6, t7, t8, t9, t10] : List ℚ) =
        [t0] ++ ([t1, t2, t3, t4, t5, t6, t7, t8, t9] ++ [t10]) := rfl
    rw [hsplit, run_rate_limit_append, h0run]
    dsimp only
    rw [run_rate_limit_append, h9run]
    dsimp only
    rw [h1run]
    rfl
  · exact check_rate_limit_reset 10 60 tNext t0 10 hn (by norm_num)

/-- Witness for `rate_limit_fixed_window`: all eleven calls at time 0,
the later call at time 100. -/
theorem rate_limit_fixed_window_witness :
    ((0 : ℚ) - 0 ≤ 60 ∧ (100 : ℚ) - 0 > 60) ∧
    run_rate_limit RATE_LIMIT_REQUESTS RATE_LIMIT_WINDOW none
        [0, 0, 0, 0, 0, 0, 0, 0, 0, 0, 0] =
      ([true, true, true, true, true, true, true, true, true, true, false],
       some { count := 10, window_start := 0 }) ∧
    check_rate_limit RATE_LIMIT_REQUESTS RATE_LIMIT_WINDOW 100
        (some { count := 10, window_start := 0 }) =
      (true, { count := 1, window_start := 100 }) := by
  refine ⟨⟨by norm_num, by norm_num⟩, ?_⟩
  exact rate_limit_fixed_window 0 0 0 0 0 0 0 0 0 0 0 100
    (by norm_num) (by norm_num) (by norm_num) (by norm_num) (by norm_num)
    (by norm_num) (by norm_num) (by norm_num) (by norm_num) (by norm_num)
    (by norm_num)

/-- One `check_rate_limit` call keeps the stored count at or below the ceiling. -/
theorem check_rate_limit_count_le (maxRequests : Nat) (window now : ℚ)
    (s : Option RateLimitState) (hs : ∀ t, s = some t → t.count ≤ maxRequests) :
    ((check_rate_limit maxRequests window now s).2).count ≤ maxRequests := by
  rcases s with - | t
  · simp only [check_rate_limit]
    split_ifs <;> dsimp only <;> omega
  · have ht := hs t rfl
    simp only [check_rate_limit]
    split_ifs <;> dsimp only <;> omega

/-- Any run of `check_rate_limit` calls from a state whose count respects the
ceiling leaves a state whose count respects the ceiling. -/
theorem run_rate_limit_count_le (maxRequests : Nat) (window : ℚ) (ts : List ℚ)
    (s : Option RateLimitState) (hs : ∀ t, s = some t → t.count ≤ maxRequests) :
    ∀ t, (run_rate_limit maxRequests window s ts).2 = some t →
      t.count ≤ maxRequests := by
  induction ts generalizing s with
  | nil =>
    intro t ht
    exact hs t (by simpa [run_rate_limit] using ht)
  | cons x ts ih =>
    intro t ht
    rw [run_rate_limit] at ht
    dsimp only at ht
    refine ih (some (check_rate_limit maxRequests window x s).2) ?_ t ht
    intro u hu
    cases hu
    exact check_rate_limit_count_le maxRequests window x s hs

/-- C5: starting from the empty state, after any sequence of
`check_rate_limit` calls the stored `RateWindow` count never exceeds the
configured ceiling `RATE_LIMIT_REQUESTS` (every intermediate point of a
longer run is the final state of the run over the corresponding prefix). -/
theorem rate_window_count_invariant (ts : List ℚ) (t : RateLimitState)
    (h : (run_rate_limit RATE_LIMIT_REQUESTS RATE_LIMIT_WINDOW none ts).2 = some t) :
    t.count ≤ RATE_LIMIT_REQUESTS :=
  run_rate_limit_count_le RATE_LIMIT_REQUESTS RATE_LIMIT_WINDOW ts none
    (fun _ h' => nomatch h') t h

/-- Witness for `rate_window_count_invariant`: a single call at time 0. -/
theorem rate_window_count_invariant_witness :
    (run_rate_limit RATE_LIMIT_REQUESTS RATE_LIMIT_WINDOW none [0]).2 =
      some { count := 1, window_start := 0 } ∧
    ({ count := 1, window_start := (0 : ℚ) } : RateLimitState).count ≤
      RATE_LIMIT_REQUESTS := by
  have h : (run_rate_limit RATE_LIMIT_REQUESTS RATE_LIMIT_WINDOW none [0]).2 =
      some { count := 1, window_start := 0 } := by
    show (run_rate_limit 10 60 none [0]).2 = some { count := 1, window_start := 0 }
    rw [run_rate_limit, check_rate_limit_first 10 60 0 (by norm_num) (by norm_num)]
    rfl
  exact ⟨h, rate_window_count_invariant [0] { count := 1, window_start := 0 } h⟩

/-- One entry of `st.session_state.history` (the dict built in `main`,
`app.py` lines 468-475). -/
structure HistoryEntry where
  text : List Char
  language : String
  voice : String
  speed : ℚ
  timestamp : String
  audio_content : List Nat
deriving DecidableEq

/-- Operation `st.session_state.history.insert(0, history_entry)` (`app.py` line 476):
insertion at position 0 of a Python list is exactly cons. -/
def history_append (entry : HistoryEntry) (history : List HistoryEntry) :
    List HistoryEntry :=
  entry :: history

/-- Operation `st.session_state.history.pop(idx)` (`app.py` line 533): deletes the
entry at position `idx`. -/
def history_remove_at (idx : Nat) (history : List HistoryEntry) :
    List HistoryEntry :=
  history.eraseIdx idx

/-- A session history obtained by appending `entries` in order to an
initially empty history (`st.session_state.history = []`). -/
def history_build (entries : List HistoryEntry) : List HistoryEntry :=
  entries.foldl (fun h e => history_append e h) []

/-- Appending preserves, and counts, the number of entries. -/
theorem history_build_length (es : List HistoryEntry) :
    (history_build es).length = es.length := by
  have key : ∀ (init : List HistoryEntry),
      (es.foldl (fun h e => history_append e h) init).length =
        es.length + init.length := by
    induction es with
    | nil => intro init; simp
    | cons e es ih =>
      intro init
      rw [List.foldl_cons, ih]
      simp [history_append]
      omega
  simpa using key []

/-- C9: the history log is most-recent-first: `history_append` puts the new
entry at index 0 and shifts the rest; for any history of at least two
appended entries, removing index 0 puts the previously second entry at
index 0 and shrinks the length by exactly 1. -/
theorem history_most_recent_first (e : HistoryEntry) (h : List HistoryEntry)
    (es : List HistoryEntry) (hlen : 2 ≤ es.length) :
    (history_append e h)[0]? = some e ∧
    (∀ i : Nat, (history_append e h)[i + 1]? = h[i]?) ∧
    (history_remove_at 0 (history_build es)).length =
      (history_build es).length - 1 ∧
    (history_remove_at 0 (history_build es))[0]? = (history_build es)[1]? := by
  refine ⟨by simp [history_append], fun i => by simp [history_append], ?_, ?_⟩ <;>
  · have hl : 2 ≤ (history_build es).length := by
      rw [history_build_length]; exact hlen
    rcases hb : history_build es with - | ⟨a, tail⟩
    · rw [hb] at hl; simp at hl
    · rcases tail with - | ⟨b, rest⟩
      · rw [hb] at hl; simp at hl
      · simp [history_remove_at]

/-- Witness for `history_most_recent_first`: two concrete entries. -/
theorem history_most_recent_first_witness :
    2 ≤ ([⟨['a'], "en", "v", 1, "t1", [0]⟩, ⟨['b'], "en", "v", 1, "t2", [1]⟩] :
      List HistoryEntry).length ∧
    (history_remove_at 0 (history_build
        [⟨['a'], "en", "v", 1, "t1", [0]⟩, ⟨['b'], "en", "v", 1, "t2", [1]⟩]))[0]? =
      (history_build
        [⟨['a'], "en", "v", 1, "t1", [0]⟩, ⟨['b'], "en", "v", 1, "t2", [1]⟩])[1]? := by
  refine ⟨by simp, ?_⟩
  exact (history_most_recent_first ⟨['a'], "en", "v", 1, "t1", [0]⟩ []
    [⟨['a'], "en", "v", 1, "t1", [0]⟩, ⟨['b'], "en", "v", 1, "t2", [1]⟩]
    (by simp)).2.2.2

/-- The per-session `st.session_state` fields the embedded code touches:
the user id created by `get_user_id` (one per session, held for the
session's lifetime), the rate window, and the history list. -/
structure SessionState where
  user_id : String
  rate_limit : Option RateLimitState
  history : List HistoryEntry

/-- Function `check_rate_limit` as invoked by `main`: it runs against the calling
session's `st.session_state` (sessions are keyed here by a session id).
The `user_id` argument of the Python function is the calling session's
own id, so the touched window belongs to that identity. -/
def app_check_rate_limit (sessions : String → SessionState) (sid : String)
    (now : ℚ) : Bool × (String → SessionState) :=
  let sess := sessions sid
  let r := check_rate_limit RATE_LIMIT_REQUESTS RATE_LIMIT_WINDOW now sess.rate_limit
  (r.1,
   fun sid' =>
     if sid' = sid then { sess with rate_limit := some r.2 } else sessions sid')

/-- C4: a `check_rate_limit` call made in the session of one identity
updates exactly that session's rate window (leaving its user id and
history intact) and leaves the session state of every distinct identity
unchanged. -/
theorem rate_limit_per_identity (sessions : String → SessionState)
    (sid sid' : String) (now : ℚ)
    (hid : (sessions sid).user_id ≠ (sessions sid').user_id) :
    (app_check_rate_limit sessions sid now).2 sid' = sessions sid' ∧
    (app_check_rate_limit sessions sid now).2 sid =
      { sessions sid with
        rate_limit := some (check_rate_limit RATE_LIMIT_REQUESTS
          RATE_LIMIT_WINDOW now (sessions sid).rate_limit).2 } ∧
    (app_check_rate_limit sessions sid now).1 =
      (check_rate_limit RATE_LIMIT_REQUESTS RATE_LIMIT_WINDOW now
        (sessions sid).rate_limit).1 := by
  have hne : sid' ≠ sid := fun hcontra => hid (by rw [hcontra])
  refine ⟨?_, ?_, rfl⟩
  · simp only [app_check_rate_limit, if_neg hne]
  · simp [app_check_rate_limit]

/-- Witness for `rate_limit_per_identity`: two sessions holding the
identities "alice" and "bob". -/
theorem rate_limit_per_identity_witness :
    (((fun s => if s = "s1" then (⟨"alice", none, []⟩ : SessionState)
        else ⟨"bob", none, []⟩) "s1").user_id ≠
      ((fun s => if s = "s1" then (⟨"alice", none, []⟩ : SessionState)
        else ⟨"bob", none, []⟩) "s2").user_id) ∧
    (app_check_rate_limit
        (fun s => if s = "s1" then (⟨"alice", none, []⟩ : SessionState)
          else ⟨"bob", none, []⟩) "s1" 0).2 "s2" =
      (fun s => if s = "s1" then (⟨"alice", none, []⟩ : SessionState)
        else ⟨"bob", none, []⟩) "s2" := by
  have hid : (((fun s => if s = "s1" then (⟨"alice", none, []⟩ : SessionState)
      else ⟨"bob", none, []⟩) "s1").user_id ≠
      ((fun s => if s = "s1" then (⟨"alice", none, []⟩ : SessionState)
        else ⟨"bob", none, []⟩) "s2").user_id) := by
    simp
  exact ⟨hid, (rate_limit_per_identity _ "s1" "s2" 0 hid).1⟩

/-- The parsed top-level JSON object of an uploaded service-account file:
its key/value pairs, values treated as opaque strings.  The on-disk
credential directory `credentials/user_service_accounts` is modelled as a
map from the user id (which deterministically names the file
`{user_id}.json`) to the stored object. -/
abbrev ServiceAccountJson := List (String × String)

/-- The list `required_fields` in `save_service_account`
(`service_account_manager.py` line 35). -/
def required_fields : List String :=
  ["type", "project_id", "private_key_id", "private_key", "client_email"]

/-- The `field in service_account_data` membership test. -/
def has_field (data : ServiceAccountJson) (field : String) : Bool :=
  data.any (fun kv => kv.1 == field)

/-- Function `save_service_account` (`service_account_manager.py` lines 30-45).
`file = none` models an upload on which `json.load` raises (not parseable
as structured credential data); the exception is swallowed by the
`except` and reported as `false`.  On success the object is written at
the user's path, overwriting any previous file. -/
def save_service_account (fs : String → Option ServiceAccountJson)
    (user_id : String) (file : Option ServiceAccountJson) :
    Bool × (String → Option ServiceAccountJson) :=
  match file with
  | none => (false, fs)
  | some data =>
    if required_fields.all (fun f => has_field data f) then
      (true, fun uid => if uid = user_id then some data else fs uid)
    else
      (false, fs)

/-- C3: an unparseable upload or one missing a required field leaves the
store untouched and returns `false`; an upload with all required fields
present is persisted at the identity's own path (overwriting whatever was
there), every other identity's entry is untouched, and `true` is
returned. -/
theorem save_service_account_correct (fs : String → Option ServiceAccountJson)
    (user_id : String) :
    (save_service_account fs user_id none = (false, fs)) ∧
    (∀ data : ServiceAccountJson,
      (required_fields.all (fun f => has_field data f) = false →
        save_service_account fs user_id (some data) = (false, fs)) ∧
      (required_fields.all (fun f => has_field data f) = true →
        (save_service_account fs user_id (some data)).1 = true ∧
        (save_service_account fs user_id (some data)).2 user_id = some data ∧
        ∀ uid, uid ≠ user_id →
          (save_service_account fs user_id (some data)).2 uid = fs uid)) := by
  refine ⟨rfl, fun data => ⟨fun hmiss => ?_, fun hall => ?_⟩⟩
  · simp [save_service_account, hmiss]
  · refine ⟨?_, ?_, fun uid huid => ?_⟩
    · simp [save_service_account, hall]
    · simp [save_service_account, hall]
    · simp [save_service_account, hall, huid]

/-- A complete credential upload used by witnesses. -/
def demo_cred_good : ServiceAccountJson :=
  [("type", "service_account"), ("project_id", "p"), ("private_key_id", "k"),
   ("private_key", "K"), ("client_email", "e")]

/-- An upload missing `project_id` and the other required fields. -/
def demo_cred_bad : ServiceAccountJson :=
  [("type", "service_account")]

/-- Witness for `save_service_account_correct`: a complete upload is
stored; an incomplete one is refused with the store unchanged. -/
theorem save_service_account_correct_witness :
    (required_fields.all (fun f => has_field demo_cred_good f) = true) ∧
    (save_service_account (fun _ => none) "user1" (some demo_cred_good)).1 = true ∧
    (save_service_account (fun _ => none) "user1" (some demo_cred_good)).2 "user1" =
      some demo_cred_good ∧
    (required_fields.all (fun f => has_field demo_cred_bad f) = false) ∧
    save_service_account (fun _ => none) "user1" (some demo_cred_bad) =
      (false, fun _ => none) := by
  have hgood : required_fields.all (fun f => has_field demo_cred_good f) = true := by
    decide
  have hbad : required_fields.all (fun f => has_field demo_cred_bad f) = false := by
    decide
  refine ⟨hgood, ?_, ?_, hbad, ?_⟩
  · exact (((save_service_account_correct (fun _ => none) "user1").2
      demo_cred_good).2 hgood).1
  · exact (((save_service_account_correct (fun _ => none) "user1").2
      demo_cred_good).2 hgood).2.1
  · exact ((save_service_account_correct (fun _ => none) "user1").2
      demo_cred_bad).1 hbad

/-- Function `remove_service_account` (`service_account_manager.py` lines 48-56):
unlinks the user's credential file if it exists and returns `true`;
`unlink_raises` models the filesystem raising during the deletion, which
the `except` turns into `false`. -/
def remove_service_account (fs : String → Option ServiceAccountJson)
    (unlink_raises : Bool) (user_id : String) :
    Bool × (String → Option ServiceAccountJson) :=
  match fs user_id with
  | none => (true, fs)
  | some _ =>
    if unlink_raises then
      (false, fs)
    else
      (true, fun uid => if uid = user_id then none else fs uid)

/-- C8: when the filesystem operation completes without error,
`remove_service_account` returns `true`, afterwards no credential is
stored for the identity, every other identity's entry is untouched, and
when nothing was stored the call is a pure no-op that still returns
`true`. -/
theorem remove_service_account_correct (fs : String → Option ServiceAccountJson)
    (user_id : String) :
    (remove_service_account fs false user_id).1 = true ∧
    (remove_service_account fs false user_id).2 user_id = none ∧
    (∀ uid, uid ≠ user_id →
      (remove_service_account fs false user_id).2 uid = fs uid) ∧
    (fs user_id = none → remove_service_account fs false user_id = (true, fs)) := by
  rcases hfs : fs user_id with - | data
  · exact ⟨by simp [remove_service_account, hfs], by simp [remove_service_account, hfs],
      fun uid _ => by simp [remove_service_account, hfs], fun _ => by
        simp [remove_service_account, hfs]⟩
  · refine ⟨by simp [remove_service_account, hfs], by simp [remove_service_account, hfs],
      fun uid huid => by simp [remove_service_account, hfs, huid], fun hnone => ?_⟩
    exact nomatch hnone

/-- Witness for `remove_service_account_correct`: removing a stored
credential and removing from an empty store. -/
theorem remove_service_account_correct_witness :
    (remove_service_account
        (fun u => if u = "user1" then some demo_cred_good else none)
        false "user1").1 = true ∧
    (remove_service_account
        (fun u => if u = "user1" then some demo_cred_good else none)
        false "user1").2 "user1" = none ∧
    ((fun _ => (none : Option ServiceAccountJson)) "user1" = none) ∧
    remove_service_account (fun _ => none) false "user1" =
      (true, fun _ => none) := by
  refine ⟨(remove_service_account_correct _ "user1").1,
    (remove_service_account_correct _ "user1").2.1, rfl,
    (remove_service_account_correct (fun _ => none) "user1").2.2.2 rfl⟩

/-- Error reports surfaced to the UI via `st.error`. -/
inductive AppError where
  | validationError
  | apiError
  | unexpectedError
deriving DecidableEq

/-- A voice descriptor as reported by the remote service
(an element of `response.voices` in `get_voices`). -/
structure RawVoice where
  name : List Char
  language_codes : List String
  ssml_gender : Nat
deriving DecidableEq

/-- Behaviour of `client.list_voices()`: a reply or a `GoogleAPIError`. -/
inductive ListVoicesOutcome where
  | success (voices : List RawVoice)
  | apiError
deriving DecidableEq

/-- The request assembled by `generate_speech`: `SynthesisInput`,
`VoiceSelectionParams` with `NEUTRAL` gender, and `AudioConfig` with MP3
encoding and the given speaking rate. -/
structure SynthesisRequest where
  text : List Char
  voice_name : String
  language_code : String
  ssml_gender : String
  audio_encoding : String
  speaking_rate : ℚ

/-- Behaviour of `client.synthesize_speech`: audio bytes, a
`GoogleAPIError`, or any other exception. -/
inductive RemoteOutcome where
  | success (audio_content : List Nat)
  | apiError
  | otherError

/-- Observable behaviour of a constructed
`texttospeech.TextToSpeechClient`. -/
structure TTSClient where
  list_voices : ListVoicesOutcome
  synthesize_speech : SynthesisRequest → RemoteOutcome

/-- Function `get_user_service_account_path` (`service_account_manager.py` lines
24-27): the deterministic per-identity path, returned only when the
credential file exists; the path is represented by the user id that
names it. -/
def get_user_service_account_path (fs : String → Option ServiceAccountJson)
    (user_id : String) : Option String :=
  if (fs user_id).isSome then some user_id else none

/-- Function `get_text_to_speech_client` (`service_account_manager.py` lines
59-71).  `construct` models `Credentials.from_service_account_file`
followed by `TextToSpeechClient(credentials=...)` applied to the stored
file's contents; `construct _ = none` models any construction failure,
which the `except` converts to `None` instead of propagating. -/
def get_text_to_speech_client (fs : String → Option ServiceAccountJson)
    (construct : ServiceAccountJson → Option TTSClient) (user_id : String) :
    Option TTSClient :=
  match get_user_service_account_path fs user_id with
  | none => none
  | some path =>
    match fs path with
    | none => none
    | some data => construct data

/-- C6: with no stored credential the client factory returns `none`; with
a stored credential whose client construction fails, the failure is
caught and the factory still returns `none`. -/
theorem get_client_failures (fs : String → Option ServiceAccountJson)
    (construct : ServiceAccountJson → Option TTSClient) (user_id : String) :
    (fs user_id = none → get_text_to_speech_client fs construct user_id = none) ∧
    (∀ data, fs user_id = some data → construct data = none →
      get_text_to_speech_client fs construct user_id = none) := by
  constructor
  · intro h
    simp [get_text_to_speech_client, get_user_service_account_path, h]
  · intro data h hc
    simp [get_text_to_speech_client, get_user_service_account_path, h, hc]

/-- Witness for `get_client_failures`: an empty store, and a store whose
credential fails construction. -/
theorem get_client_failures_witness :
    ((fun _ => (none : Option ServiceAccountJson)) "user1" = none) ∧
    get_text_to_speech_client (fun _ => none) (fun _ => none) "user1" = none ∧
    ((fun _ => some demo_cred_good) "user1" = some demo_cred_good) ∧
    ((fun _ => (none : Option TTSClient)) demo_cred_good = none) ∧
    get_text_to_speech_client (fun _ => some demo_cred_good) (fun _ => none)
      "user1" = none :=
  ⟨rfl, (get_client_failures (fun _ => none) (fun _ => none) "user1").1 rfl,
   rfl, rfl,
   (get_client_failures (fun _ => some demo_cred_good) (fun _ => none)
     "user1").2 demo_cred_good rfl rfl⟩

/-- The dicts produced by `get_voices`. -/
structure VoiceDict where
  name : List Char
  language_code : String
  gender : Nat
deriving DecidableEq

/-- Function `get_voices` (`app.py` lines 285-304): flattens every reported voice
over its language codes; on `GoogleAPIError` it logs, reports through
`st.error`, and returns the empty list.  The second component collects
the errors surfaced to the UI.  The gender is the `ssml_gender` code
(rendered by its enum name in the source); the `lru_cache` memoisation
does not change the value computed for a client. -/
def get_voices (client : TTSClient) : List VoiceDict × List AppError :=
  match client.list_voices with
  | ListVoicesOutcome.success raws =>
    (raws.flatMap (fun v => v.language_codes.map
      (fun lc => { name := v.name, language_code := lc,
                   gender := v.ssml_gender })), [])
  | ListVoicesOutcome.apiError => ([], [AppError.apiError])

/-- C7: when the remote list-voices call fails, `get_voices` returns the
empty sequence together with a recoverable error report, instead of
propagating the failure. -/
theorem get_voices_remote_failure (client : TTSClient)
    (h : client.list_voices = ListVoicesOutcome.apiError) :
    get_voices client = ([], [AppError.apiError]) := by
  simp [get_voices, h]

/-- Witness for `get_voices_remote_failure`: a client whose list-voices
call fails. -/
theorem get_voices_remote_failure_witness :
    (TTSClient.mk ListVoicesOutcome.apiError
        (fun _ => RemoteOutcome.apiError)).list_voices =
      ListVoicesOutcome.apiError ∧
    get_voices ⟨ListVoicesOutcome.apiError, fun _ => RemoteOutcome.apiError⟩ =
      ([], [AppError.apiError]) :=
  ⟨rfl, get_voices_remote_failure
    ⟨ListVoicesOutcome.apiError, fun _ => RemoteOutcome.apiError⟩ rfl⟩

/-- Function `generate_speech` (`app.py` lines 325-352).  Result: the audio
returned (or `none`), the number of `synthesize_speech` calls attempted,
and the errors reported via `st.error`.  A text longer than the limit
raises `ValueError` before the request is built, caught by the
`except ValueError` arm; remote and unexpected failures are converted to
`None` plus a report by the other arms. -/
def generate_speech (maxTextLength : Nat) (client : TTSClient)
    (text : List Char) (voice_name : String) (language_code : String)
    (speed : ℚ) : Option (List Nat) × Nat × List AppError :=
  if text.length > maxTextLength then
    (none, 0, [AppError.validationError])
  else
    match client.synthesize_speech
        { text := text, voice_name := voice_name,
          language_code := language_code, ssml_gender := "NEUTRAL",
          audio_encoding := "MP3", speaking_rate := speed } with
    | RemoteOutcome.success audio => (some audio, 1, [])
    | RemoteOutcome.apiError => (none, 1, [AppError.apiError])
    | RemoteOutcome.otherError => (none, 1, [AppError.unexpectedError])

/-- C2: any text strictly longer than the limit makes `generate_speech`
return `none` with a validation error reported and zero remote
`synthesize_speech` calls attempted. -/
theorem generate_speech_rejects_long_text (maxTextLength : Nat)
    (client : TTSClient) (text : List Char) (voice_name language_code : String)
    (speed : ℚ) (h : maxTextLength < text.length) :
    generate_speech maxTextLength client text voice_name language_code speed =
      (none, 0, [AppError.validationError]) := by
  simp [generate_speech, h]

/-- Witness for `generate_speech_rejects_long_text`: a text of length
exactly `MAX_TEXT_LENGTH + 1`. -/
theorem generate_speech_rejects_long_text_witness :
    MAX_TEXT_LENGTH < (List.replicate (MAX_TEXT_LENGTH + 1) 'a').length ∧
    generate_speech MAX_TEXT_LENGTH
        ⟨ListVoicesOutcome.success [], fun _ => RemoteOutcome.apiError⟩
        (List.replicate (MAX_TEXT_LENGTH + 1) 'a') "v" "en-US" 1 =
      (none, 0, [AppError.validationError]) := by
  have h : MAX_TEXT_LENGTH < (List.replicate (MAX_TEXT_LENGTH + 1) 'a').length := by
    simp
  exact ⟨h, generate_speech_rejects_long_text MAX_TEXT_LENGTH
    ⟨ListVoicesOutcome.success [], fun _ => RemoteOutcome.apiError⟩
    (List.replicate (MAX_TEXT_LENGTH + 1) 'a') "v" "en-US" 1 h⟩

/-- Python `voice_name.split("-")` on the character list of the name:
split at every dash, keeping empty segments; the result is never the
empty list of parts. -/
def split_dash : List Char → List (List Char)
  | [] => [[]]
  | c :: cs =>
    if c = '-' then
      [] :: split_dash cs
    else
      match split_dash cs with
      | [] => [[c]]
      | p :: ps => (c :: p) :: ps

/-- Python `"-".join(parts)`. -/
def join_dash : List (List Char) → List Char
  | [] => []
  | [p] => p
  | p :: ps => p ++ '-' :: join_dash ps

theorem split_dash_ne_nil (l : List Char) : split_dash l ≠ [] := by
  cases l with
  | nil => simp [split_dash]
  | cons c cs =>
    simp only [split_dash]
    split_ifs
    · simp
    · cases h : split_dash cs <;> simp

theorem join_dash_cons_cons (p q : List Char) (qs : List (List Char)) :
    join_dash (p :: q :: qs) = p ++ '-' :: join_dash (q :: qs) := rfl

theorem join_dash_cons_head (c : Char) (p : List Char) (ps : List (List Char)) :
    join_dash ((c :: p) :: ps) = c :: join_dash (p :: ps) := by
  cases ps with
  | nil => rfl
  | cons q qs => simp [join_dash_cons_cons]

/-- Rejoining the dash-split segments with dashes restores the string. -/
theorem join_dash_split_dash (l : List Char) : join_dash (split_dash l) = l := by
  induction l with
  | nil => rfl
  | cons c cs ih =>
    obtain ⟨q, qs, hq⟩ : ∃ q qs, split_dash cs = q :: qs := by
      cases h : split_dash cs with
      | nil => exact absurd h (split_dash_ne_nil cs)
      | cons q qs => exact ⟨q, qs, rfl⟩
    by_cases hc : c = '-'
    · subst hc
      rw [split_dash, if_pos rfl, hq, join_dash_cons_cons, List.nil_append, ← hq, ih]
    · rw [split_dash, if_neg hc, hq]
      dsimp only
      rw [join_dash_cons_head, ← hq, ih]

/-- The dict returned by `parse_voice_name`. -/
structure ParsedVoice where
  language : List Char
  country : List Char
  audio_type : List Char
  name : List Char
deriving DecidableEq

/-- Function `parse_voice_name` (`app.py` lines 355-368): split the name on `-`;
with at least four parts return language, country, audio type and the
remaining parts rejoined with `-`; otherwise return `None`.  (None of
these operations can raise, so the `except` arm never fires.) -/
def parse_voice_name (voice_name : List Char) : Option ParsedVoice :=
  match split_dash voice_name with
  | p0 :: p1 :: p2 :: p3 :: rest =>
    some { language := p0, country := p1, audio_type := p2,
           name := join_dash (p3 :: rest) }
  | _ => none

/-- Function `format_voice_display` (`app.py` lines 371-376):
`f"{language}-{country}-{audio_type}-{name}"` when parsing succeeds,
otherwise the raw name. -/
def format_voice_display (voice : VoiceDict) : List Char :=
  match parse_voice_name voice.name with
  | some parsed =>
    parsed.language ++ '-' :: parsed.country ++ '-' :: parsed.audio_type ++
      '-' :: parsed.name
  | none => voice.name

/-- C10: `format_voice_display` is the identity on the voice's name: with
at least four dash-separated parts, parsing succeeds and the formatted
display rejoins them into exactly the original name; with fewer parts,
parsing yields `none` and the name is returned unchanged. -/
theorem format_voice_display_id (voice : VoiceDict) :
    (4 ≤ (split_dash voice.name).length →
      (parse_voice_name voice.name).isSome = true) ∧
    ((split_dash voice.name).length < 4 → parse_voice_name voice.name = none) ∧
    format_voice_display voice = voice.name := by
  rcases hsp : split_dash voice.name with - | ⟨p0, - | ⟨p1, - | ⟨p2, - | ⟨p3, rest⟩⟩⟩⟩
  · exact absurd hsp (split_dash_ne_nil voice.name)
  · refine ⟨fun h4 => ?_, fun _ => ?_, ?_⟩
    · exfalso
      simp only [List.length_cons, List.length_nil] at h4
      omega
    · simp [parse_voice_name, hsp]
    · simp [format_voice_display, parse_voice_name, hsp]
  · refine ⟨fun h4 => ?_, fun _ => ?_, ?_⟩
    · exfalso
      simp only [List.length_cons, List.length_nil] at h4
      omega
    · simp [parse_voice_name, hsp]
    · simp [format_voice_display, parse_voice_name, hsp]
  · refine ⟨fun h4 => ?_, fun _ => ?_, ?_⟩
    · exfalso
      simp only [List.length_cons, List.length_nil] at h4
      omega
    · simp [parse_voice_name, hsp]
    · simp [format_voice_display, parse_voice_name, hsp]
  · have hid := join_dash_split_dash voice.name
    rw [hsp] at hid
    refine ⟨fun _ => ?_, fun hlt => ?_, ?_⟩
    · simp [parse_voice_name, hsp]
    · exfalso
      simp only [List.length_cons] at hlt
      omega
    · simp only [format_voice_display, parse_voice_name, hsp]
      rw [← hid, join_dash_cons_cons, join_dash_cons_cons, join_dash_cons_cons]
      simp [List.append_assoc]

/-- Witness for `format_voice_display_id`: the default voice name. -/
theorem format_voice_display_id_witness :
    4 ≤ (split_dash ("en-US-Wavenet-A".toList)).length ∧
    (parse_voice_name ("en-US-Wavenet-A".toList)).isSome = true ∧
    format_voice_display ⟨"en-US-Wavenet-A".toList, "en-US", 0⟩ =
      "en-US-Wavenet-A".toList := by
  have h := format_voice_display_id ⟨"en-US-Wavenet-A".toList, "en-US", 0⟩
  exact ⟨by decide, h.1 (by decide), h.2.2⟩
